import Mathlib

/-!
Shallow embedding of runtime/signals_nat.c (native-code signal handling and
the allocation/GC entry point of the OCaml multicore runtime).

Machine integers: `uintnat` values are modelled as `Nat` reduced modulo
`2 ^ 64`; the only place where unsigned wraparound matters is the pointer
subtraction `(uintnat)(Caml_state->young_ptr - whsize)` in the retry loop of
`caml_garbage_collection`, modelled by `sub64`.

External collaborators (`caml_handle_gc_interrupt`, `caml_process_pending_signals`,
the OS signal-registration primitive, `caml_record_signal`) are parameters of
the definitions: the theorems hold for every behaviour of those collaborators.

The unbounded loops of the C code (the `while (1)` descriptor probe and the
`do ... while` retry loop) are modelled with explicit fuel: a `none` result
means the C loop has not exited within that many iterations.
-/

namespace SignalsNat

/-- Modulus for 64-bit unsigned machine words (`uintnat`). -/
def MOD : Nat := 2 ^ 64

/-- Wrapping 64-bit addition. -/
def add64 (a b : Nat) : Nat := (a + b) % MOD

/-- Wrapping 64-bit subtraction, `(uintnat)(a - b)`. -/
def sub64 (a b : Nat) : Nat := (a + (MOD - b % MOD)) % MOD

/-- A frame descriptor record (`frame_descr`).  The C layout stores, after the
`live_ofs` array, one byte holding the number of encoded allocation sizes
followed by that many encoded size bytes; here `alloc_lens` is exactly that
byte sequence, so the count byte read by the C code is `alloc_lens.length`. -/
structure frame_descr where
  retaddr : Nat
  frame_size : Nat
  num_live : Nat
  live_ofs : List Nat
  alloc_lens : List Nat
deriving Repr, DecidableEq

/-- The frame-descriptor hash table (`caml_frame_descrs`): a bit mask and the
slot array.  Slots are modelled as a total function from (masked) indices to
descriptor records: reading slot `h` dereferences the stored pointer and
yields the descriptor found there; an address that is absent from the table
is one that no slot's `retaddr` field equals. -/
structure caml_frame_descrs where
  mask : Nat
  descriptors : Nat → frame_descr

/-- Modelled from the spec: the initial probe index is the return address
hashed and then reduced with the table's bit mask (`Hash_retaddr` is defined
in a header that is not under src; the spec only requires a masked starting
index, and no theorem below depends on the shift). -/
def Hash_retaddr (retaddr mask : Nat) : Nat := (retaddr >>> 3) &&& mask

/-- The descriptor probe loop of `caml_garbage_collection` (lines 74-79):
`while (1) { d = fds.descriptors[h]; if (d->retaddr == retaddr) break;
h = (h + 1) & fds.mask; }`, with fuel: `none` means the loop has not found a
match within `fuel` probes (the C loop keeps spinning). -/
def probe_loop (fds : caml_frame_descrs) (retaddr : Nat) : Nat → Nat → Option frame_descr
  | _, 0 => none
  | h, fuel + 1 =>
    let d := fds.descriptors h
    if d.retaddr = retaddr then some d
    else probe_loop fds retaddr ((h + 1) &&& fds.mask) fuel

/-- Modelled from the spec: the object header occupies one word, so the
header-inclusive size of a block of header-exclusive size `w` is `w + 1`
(the macro `Whsize_wosize` is defined in a header that is not under src; the
spec's glossary fixes header-inclusive = header-exclusive + header, and
Scenario A fixes the header at one word: 3 ↦ 4, 5 ↦ 6). -/
def Whsize_wosize (w : Nat) : Nat := w + 1

/-- The accumulation loop of lines 97-99:
`for (i = 0; i < nallocs; i++) allocsz += Whsize_wosize (Wosize_encoded_alloc_len (alloc_len[i]));`.
The per-byte decoding `Wosize_encoded_alloc_len` (defined in a header not
under src) is kept as an abstract parameter `decode` from encoded bytes to
header-exclusive word counts. -/
def alloc_size_fold (decode : Nat → Nat) (bytes : List Nat) : Nat :=
  bytes.foldl (fun acc b => acc + Whsize_wosize (decode b)) 0

/-- `allocsz` after line 102 (`allocsz -= 1`): the summed header-inclusive
sizes minus one word. -/
def allocsz (decode : Nat → Nat) (bytes : List Nat) : Nat :=
  alloc_size_fold decode bytes - 1

/-- `whsize` of line 105: the decoded total re-expressed in header-inclusive
form, the quantity by which the handler adjusts `young_ptr`. -/
def whsize (decode : Nat → Nat) (bytes : List Nat) : Nat :=
  Whsize_wosize (allocsz decode bytes)

/-- The part of the execution context's state this file touches: the minor
heap bump cursor and its low-water limit (`Caml_state->young_ptr`,
`Caml_state->young_limit`). -/
structure CamlState where
  young_ptr : Nat
  young_limit : Nat
deriving Repr, DecidableEq

/-- One iteration body of the retry loop (and of the poll path): one call to
`caml_handle_gc_interrupt` followed by one call to
`caml_process_pending_signals`.  Both are external; `gi` and `ps` give the
state transformation performed by the n-th invocation of each. -/
def gc_pass (gi ps : Nat → CamlState → CamlState) (n : Nat) (s : CamlState) : CamlState :=
  ps n (gi n s)

/-- State after `k` further passes starting with invocation index `n`. -/
def passes_from (gi ps : Nat → CamlState → CamlState) : Nat → CamlState → Nat → CamlState
  | _, s, 0 => s
  | n, s, k + 1 => passes_from gi ps (n + 1) (gc_pass gi ps n s) k

/-- The `do { ... } while ((uintnat)(young_ptr - whsize) <= young_limit)`
retry loop of lines 116-120, with fuel.  On exit it returns the state at
loop exit together with the total number of pass-pairs executed. -/
def gc_loop (gi ps : Nat → CamlState → CamlState) (whs : Nat) :
    Nat → Nat → CamlState → Option (CamlState × Nat)
  | _, 0, _ => none
  | n, fuel + 1, s =>
    let s1 := gc_pass gi ps n s
    if sub64 s1.young_ptr whs ≤ s1.young_limit then gc_loop gi ps whs (n + 1) fuel s1
    else some (s1, n + 1)

/-- Result of `caml_garbage_collection`.  `poll` and `alloc` record the state
on return and how many times `caml_handle_gc_interrupt` respectively
`caml_process_pending_signals` were invoked.  `fatal` would be an abort via
the fatal-error facility; no path of this function constructs it (the
`CAMLassert` on line 81 compiles away in release builds and concerns a
descriptor that was already found, not a failed lookup). -/
inductive GcResult where
  | poll (s : CamlState) (interrupt_calls drain_calls : Nat)
  | alloc (s : CamlState) (interrupt_calls drain_calls : Nat)
  | fatal
deriving Repr, DecidableEq

/-- `caml_garbage_collection` (lines 59-125): look up the frame descriptor
for the return address; if the descriptor carries zero encoded sizes this is
a poll — run one interrupt pass and one signal drain and return with no
cursor adjustment; otherwise decode the total size, roll the cursor back by
`whsize`, loop until the retracted cursor would sit strictly above the
limit, and finally retract by `whsize`.  `none` means one of the two
unbounded C loops has not exited within `fuel` iterations. -/
def caml_garbage_collection (fds : caml_frame_descrs) (decode : Nat → Nat)
    (gi ps : Nat → CamlState → CamlState) (retaddr : Nat) (st0 : CamlState)
    (fuel : Nat) : Option GcResult :=
  match probe_loop fds retaddr (Hash_retaddr retaddr fds.mask) fuel with
  | none => none
  | some d =>
    if d.alloc_lens.length = 0 then
      some (.poll (gc_pass gi ps 0 st0) 1 1)
    else
      let whs := whsize decode d.alloc_lens
      let s1 : CamlState := { st0 with young_ptr := add64 st0.young_ptr whs }
      match gc_loop gi ps whs 0 fuel s1 with
      | none => none
      | some (s2, n) => some (.alloc { s2 with young_ptr := sub64 s2.young_ptr whs } n n)

/-- An OS-level signal disposition: default, ignore, the runtime's trampoline
`handle_signal`, or some handler installed by outside code. -/
inductive OsHandler where
  | SIG_DFL
  | SIG_IGN
  | caml_handler
  | outside (id : Nat)
deriving Repr, DecidableEq

/-- The OS's per-signal disposition table, together with which signal numbers
the OS registration call accepts (`sigaction` fails with -1 exactly on the
numbers it rejects, e.g. numbers invalid for the platform). -/
structure OsSignalState where
  disp : Int → OsHandler
  ok : Int → Bool

/-- The POSIX `sigaction(signo, &sigact, &oldsigact)` registration primitive:
atomically read the previous disposition and install the new one, or fail. -/
def sigaction (os : OsSignalState) (signo : Int) (h : OsHandler) :
    Option (OsHandler × OsSignalState) :=
  if os.ok signo then
    some (os.disp signo,
      { os with disp := fun s => if s = signo then h else os.disp s })
  else none

/-- `caml_set_signal_action` (lines 140-169), POSIX configuration: map the
action code to a handler (0 ↦ SIG_DFL, 1 ↦ SIG_IGN, anything else ↦ the
trampoline), register it, return -1 on OS failure, else 2/1/0 according to
whether the previous handler was the trampoline / SIG_IGN / anything else.
The second component is the OS state after the call. -/
def caml_set_signal_action (os : OsSignalState) (signo action : Int) :
    Int × OsSignalState :=
  let act : OsHandler :=
    if action = 0 then .SIG_DFL
    else if action = 1 then .SIG_IGN
    else .caml_handler
  match sigaction os signo act with
  | none => (-1, os)
  | some (oldact, os1) =>
    if oldact = .caml_handler then (2, os1)
    else if oldact = .SIG_IGN then (1, os1)
    else (0, os1)

/-- The ambient state the trampoline touches: the `errno` variable of the
interrupted code and the Pending-Signal Set (one flag per signal number). -/
structure SigCtx where
  errno : Int
  pending : Int → Bool

/-- Modelled from the spec: `caml_record_signal` (defined in signals.c, not
under src) adds the signal number to the Pending-Signal Set; its effect on
`errno` is left arbitrary (`recErr`), since the trampoline must protect the
interrupted code against it. -/
def caml_record_signal (recErr : Int → Int) (sig : Int) (st : SigCtx) : SigCtx :=
  { errno := recErr st.errno,
    pending := fun s => if s = sig then true else st.pending s }

/-- The signal trampoline `handle_signal` (lines 127-138), POSIX
configuration (the legacy re-arm of line 133 compiles away): save `errno`,
silently drop out-of-range signal numbers, otherwise record the signal and
restore `errno`.  `nsig` is the platform's `NSIG` (64 by default here). -/
def handle_signal (nsig : Nat) (recErr : Int → Int) (sig : Int) (st : SigCtx) : SigCtx :=
  let saved_errno := st.errno
  if sig < 0 ∨ (nsig : Int) ≤ sig then st
  else
    let st1 := caml_record_signal recErr sig st
    { st1 with errno := saved_errno }

/-- A concrete allocation-site descriptor for Scenario A: two encoded size
bytes which, under the identity decode, give header-exclusive sizes 3 and 5.
`frame_size` has the allocation bit (bit 1) set and is not the 0xFFFF
sentinel. -/
def d_scene_a : frame_descr :=
  { retaddr := 8, frame_size := 2, num_live := 0, live_ofs := [], alloc_lens := [3, 5] }

/-- A one-slot table (mask 0) holding just `d_scene_a`. -/
def fds_scene_a : caml_frame_descrs :=
  { mask := 0, descriptors := fun _ => d_scene_a }

/-- A concrete OS state for witnesses: every signal accepted, all default. -/
def os0 : OsSignalState :=
  { disp := fun _ => .SIG_DFL, ok := fun _ => true }

/-- A concrete poll-site descriptor: zero encoded allocation sizes. -/
def d_poll : frame_descr :=
  { retaddr := 8, frame_size := 1, num_live := 0, live_ofs := [], alloc_lens := [] }

/-- A one-slot table (mask 0) holding just `d_poll`. -/
def fds_poll : caml_frame_descrs :=
  { mask := 0, descriptors := fun _ => d_poll }

/-- A concrete descriptor whose key is 5, used to build tables in which the
queried return address 7 has no matching descriptor. -/
def d_miss : frame_descr :=
  { retaddr := 5, frame_size := 2, num_live := 0, live_ofs := [], alloc_lens := [1] }

/-- A one-slot table (mask 0) whose only descriptor has key 5: no descriptor
with key 7 exists anywhere in it. -/
def fds_miss : caml_frame_descrs :=
  { mask := 0, descriptors := fun _ => d_miss }

/-- A concrete descriptor with key 9, stored in slot 1 of `fds_two`. -/
def d_found : frame_descr :=
  { retaddr := 9, frame_size := 2, num_live := 0, live_ofs := [], alloc_lens := [1] }

/-- A two-slot table (mask 1, size 2^1): slot 1 holds `d_found` (key 9),
slot 0 holds `d_miss`. -/
def fds_two : caml_frame_descrs :=
  { mask := 1, descriptors := fun h => if h = 1 then d_found else d_miss }

theorem alloc_size_fold_eq_sum (decode : Nat → Nat) (bytes : List Nat) :
    alloc_size_fold decode bytes
      = (bytes.map fun b => Whsize_wosize (decode b)).sum := by
  suffices h : ∀ acc : Nat,
      bytes.foldl (fun acc b => acc + Whsize_wosize (decode b)) acc
        = acc + (bytes.map fun b => Whsize_wosize (decode b)).sum by
    simpa [alloc_size_fold] using h 0
  induction bytes with
  | nil => intro acc; simp
  | cons b bs ih =>
    intro acc
    simp only [List.foldl_cons, List.map_cons, List.sum_cons, ih]
    omega

/-- C1: for every encoded-size sequence with N ≥ 1 entries, the decoded total
`allocsz` equals the sum of the individually decoded header-inclusive sizes
minus exactly one word; for a descriptor with two encoded sizes decoding to
header-exclusive 3 and 5 (header-inclusive 4 and 6) the decoded total is 9
words; and the handler's cursor adjustment is this total re-expressed in
header-inclusive form, `Whsize_wosize 9 = 10`: on Scenario A's descriptor
the handler rolls the cursor forward by `Whsize_wosize 9` and finally
retracts it by the same amount. -/
theorem decoder_total_correct (decode : Nat → Nat) (bytes : List Nat)
    (hne : bytes ≠ []) :
    allocsz decode bytes = (bytes.map fun b => Whsize_wosize (decode b)).sum - 1
    ∧ allocsz (fun b => b) [3, 5] = 9
    ∧ whsize (fun b => b) [3, 5] = Whsize_wosize 9
    ∧ caml_garbage_collection fds_scene_a (fun b => b) (fun _ s => s) (fun _ s => s)
        8 { young_ptr := 100, young_limit := 10 } 1
      = some (.alloc
          { young_ptr := sub64 (add64 100 (Whsize_wosize 9)) (Whsize_wosize 9),
            young_limit := 10 } 1 1) := by
  refine ⟨?_, by decide, by decide, by decide⟩
  rw [allocsz, alloc_size_fold_eq_sum]

/-- Witness for C1 at the concrete Scenario A byte sequence. -/
theorem decoder_total_correct_witness :
    ([3, 5] : List Nat) ≠ []
    ∧ (allocsz (fun b => b) [3, 5]
          = (([3, 5] : List Nat).map fun b => Whsize_wosize ((fun b => b) b)).sum - 1
       ∧ allocsz (fun b => b) [3, 5] = 9
       ∧ whsize (fun b => b) [3, 5] = Whsize_wosize 9
       ∧ caml_garbage_collection fds_scene_a (fun b => b) (fun _ s => s) (fun _ s => s)
           8 { young_ptr := 100, young_limit := 10 } 1
         = some (.alloc
             { young_ptr := sub64 (add64 100 (Whsize_wosize 9)) (Whsize_wosize 9),
               young_limit := 10 } 1 1)) :=
  ⟨by decide, decoder_total_correct (fun b => b) [3, 5] (by decide)⟩

/-- C6: the return value of `caml_set_signal_action` reflects the prior
OS-level disposition — 2 if the previously installed handler was the
runtime's trampoline, 1 if it was the ignore disposition, 0 otherwise — and
the distinct failure value -1 is returned if and only if the underlying OS
registration call itself reports an error. -/
theorem set_signal_action_reports_prior (os : OsSignalState) (signo action : Int) :
    ((caml_set_signal_action os signo action).1 = -1 ↔ os.ok signo = false)
    ∧ (os.ok signo = true →
        (caml_set_signal_action os signo action).1 =
          (if os.disp signo = OsHandler.caml_handler then 2
           else if os.disp signo = OsHandler.SIG_IGN then 1 else 0)) := by
  unfold caml_set_signal_action sigaction
  cases hok : os.ok signo with
  | false => simp
  | true =>
    simp only [if_pos rfl, if_true]
    constructor
    · constructor
      · intro hcontra
        by_cases h1 : os.disp signo = OsHandler.caml_handler
        · simp [h1] at hcontra
        · by_cases h2 : os.disp signo = OsHandler.SIG_IGN
          · simp [h1, h2] at hcontra
          · simp [h1, h2] at hcontra
      · intro hcontra; cases hcontra
    · intro _
      by_cases h1 : os.disp signo = OsHandler.caml_handler
      · simp [h1]
      · by_cases h2 : os.disp signo = OsHandler.SIG_IGN
        · simp [h1, h2]
        · simp [h1, h2]

/-- Witness for C6 at a concrete input. -/
theorem set_signal_action_reports_prior_witness :
    ((caml_set_signal_action os0 3 0).1 = -1 ↔ os0.ok 3 = false)
    ∧ (os0.ok 3 = true →
        (caml_set_signal_action os0 3 0).1 =
          (if os0.disp 3 = OsHandler.caml_handler then 2
           else if os0.disp 3 = OsHandler.SIG_IGN then 1 else 0)) :=
  set_signal_action_reports_prior os0 3 0

/-- C7: for every signal number the OS accepts, setting the disposition to
ignore (action 1) and immediately calling `caml_set_signal_action` again on
the same signal with any action returns 1 (previous-was-ignored) from the
second call. -/
theorem ignore_roundtrip (os : OsSignalState) (signo action : Int)
    (hok : os.ok signo = true) :
    (caml_set_signal_action (caml_set_signal_action os signo 1).2 signo action).1 = 1 := by
  unfold caml_set_signal_action sigaction
  by_cases h1 : os.disp signo = OsHandler.caml_handler
  · simp [hok, h1]
  · by_cases h2 : os.disp signo = OsHandler.SIG_IGN
    · simp [hok, h1, h2]
    · simp [hok, h1, h2]

/-- Witness for C7 at a concrete input. -/
theorem ignore_roundtrip_witness :
    os0.ok 3 = true
    ∧ (caml_set_signal_action (caml_set_signal_action os0 3 1).2 3 0).1 = 1 :=
  ⟨rfl, ignore_roundtrip os0 3 0 rfl⟩

/-- C10: for every action code other than 0 and 1, and every signal number
the OS accepts, `caml_set_signal_action` installs the runtime's trampoline
as the signal handler and does not report a failure: unknown action codes
fall into the switch's default case and are treated as runtime-managed. -/
theorem unknown_action_installs_trampoline (os : OsSignalState) (signo action : Int)
    (ha0 : action ≠ 0) (ha1 : action ≠ 1) (hok : os.ok signo = true) :
    (caml_set_signal_action os signo action).2.disp signo = OsHandler.caml_handler
    ∧ (caml_set_signal_action os signo action).1 ≠ -1 := by
  unfold caml_set_signal_action sigaction
  by_cases h1 : os.disp signo = OsHandler.caml_handler
  · simp [hok, ha0, ha1, h1]
  · by_cases h2 : os.disp signo = OsHandler.SIG_IGN
    · simp [hok, ha0, ha1, h1, h2]
    · simp [hok, ha0, ha1, h1, h2]

/-- Witness for C10 at a concrete input (action code 5). -/
theorem unknown_action_installs_trampoline_witness :
    (5 : Int) ≠ 0 ∧ (5 : Int) ≠ 1 ∧ os0.ok 3 = true
    ∧ ((caml_set_signal_action os0 3 5).2.disp 3 = OsHandler.caml_handler
       ∧ (caml_set_signal_action os0 3 5).1 ≠ -1) :=
  ⟨by decide, by decide, rfl,
   unknown_action_installs_trampoline os0 3 5 (by decide) (by decide) rfl⟩

/-- C8: the trampoline preserves `errno`: for every signal number (in range
or not) and every behaviour of `caml_record_signal` on `errno`, the value of
`errno` after `handle_signal` completes equals its value on entry. -/
theorem trampoline_preserves_errno (nsig : Nat) (recErr : Int → Int) (sig : Int)
    (st : SigCtx) : (handle_signal nsig recErr sig st).errno = st.errno := by
  unfold handle_signal
  by_cases h : sig < 0 ∨ (nsig : Int) ≤ sig
  · simp [h]
  · simp [h, caml_record_signal]

/-- C9: for every out-of-range signal number (negative, or at least the
platform's `NSIG`), the trampoline returns with the state entirely
unchanged: in particular no entry is added to the Pending-Signal Set, and no
fault or error report is produced. -/
theorem trampoline_out_of_range_noop (nsig : Nat) (recErr : Int → Int) (sig : Int)
    (st : SigCtx) (hrange : sig < 0 ∨ (nsig : Int) ≤ sig) :
    handle_signal nsig recErr sig st = st := by
  unfold handle_signal
  simp [hrange]

/-- Witness for C9: signal number NSIG + 1 = 65 on a platform with NSIG = 64
(also checking NSIG itself stays out of range), with an adversarial
`caml_record_signal` errno effect. -/
theorem trampoline_out_of_range_noop_witness :
    ((65 : Int) < 0 ∨ ((64 : Nat) : Int) ≤ 65)
    ∧ handle_signal 64 (fun e => e + 7) 65 { errno := 0, pending := fun _ => false }
        = { errno := 0, pending := fun _ => false } :=
  ⟨Or.inr (by decide),
   trampoline_out_of_range_noop 64 (fun e => e + 7) 65
     { errno := 0, pending := fun _ => false } (Or.inr (by decide))⟩

/-- C3: whenever the frame descriptor found for the return address carries a
zero encoded-size count — whatever its other fields — the handler takes the
poll path: it runs the external interrupt entry point exactly once and the
pending-signal drain exactly once and returns immediately, performing no
cursor adjustment of its own; in particular, whenever the two external calls
leave the cursor alone, the cursor on return equals the cursor on entry. -/
theorem poll_path_immediate (fds : caml_frame_descrs) (decode : Nat → Nat)
    (gi ps : Nat → CamlState → CamlState) (retaddr : Nat) (st0 : CamlState)
    (fuel : Nat) (d : frame_descr)
    (hd : probe_loop fds retaddr (Hash_retaddr retaddr fds.mask) fuel = some d)
    (hz : d.alloc_lens.length = 0) :
    caml_garbage_collection fds decode gi ps retaddr st0 fuel
      = some (GcResult.poll (gc_pass gi ps 0 st0) 1 1)
    ∧ ((∀ n s, (gi n s).young_ptr = s.young_ptr) →
       (∀ n s, (ps n s).young_ptr = s.young_ptr) →
       (gc_pass gi ps 0 st0).young_ptr = st0.young_ptr) := by
  constructor
  · unfold caml_garbage_collection
    rw [hd]
    simp [hz]
  · intro hgi hps
    simp [gc_pass, hgi, hps]

/-- Witness for C3 on a concrete poll descriptor. -/
theorem poll_path_immediate_witness :
    (probe_loop fds_poll 8 (Hash_retaddr 8 fds_poll.mask) 1 = some d_poll
     ∧ d_poll.alloc_lens.length = 0)
    ∧ (caml_garbage_collection fds_poll (fun b => b) (fun _ s => s) (fun _ s => s) 8
         { young_ptr := 100, young_limit := 10 } 1
       = some (GcResult.poll (gc_pass (fun _ s => s) (fun _ s => s) 0
           { young_ptr := 100, young_limit := 10 }) 1 1)
       ∧ ((∀ n s, ((fun _ s => s : Nat → CamlState → CamlState) n s).young_ptr
              = s.young_ptr) →
          (∀ n s, ((fun _ s => s : Nat → CamlState → CamlState) n s).young_ptr
              = s.young_ptr) →
          (gc_pass (fun _ s => s) (fun _ s => s) 0
            { young_ptr := 100, young_limit := 10 }).young_ptr = 100)) :=
  ⟨⟨by decide, by decide⟩,
   poll_path_immediate fds_poll (fun b => b) (fun _ s => s) (fun _ s => s) 8
     { young_ptr := 100, young_limit := 10 } 1 d_poll (by decide) (by decide)⟩

theorem probe_loop_none_of_no_match (fds : caml_frame_descrs) (retaddr : Nat)
    (hno : ∀ i, (fds.descriptors i).retaddr ≠ retaddr) :
    ∀ fuel h, probe_loop fds retaddr h fuel = none := by
  intro fuel
  induction fuel with
  | zero => intro h; rfl
  | succ fuel ih =>
    intro h
    simp only [probe_loop]
    rw [if_neg (hno h)]
    exact ih _

/-- C4, counterexample: the claim says a return address with no matching
descriptor makes the handler terminate the process via the fatal-error
facility.  On the concrete table `fds_miss` (whose only descriptor has key
5) and query 7, the handler instead keeps probing: after any finite number
of loop iterations it has produced no result at all — in particular it never
produces `GcResult.fatal`. -/
theorem lookup_miss_never_fatal :
    (fun fuel => caml_garbage_collection fds_miss (fun b => b) (fun _ s => s)
        (fun _ s => s) 7 { young_ptr := 100, young_limit := 10 } fuel)
      = (fun _ => (none : Option GcResult))
    ∧ (none : Option GcResult) ≠ some GcResult.fatal := by
  constructor
  · funext fuel
    have hno : ∀ i, (fds_miss.descriptors i).retaddr ≠ 7 := fun i => by
      simp [fds_miss, d_miss]
    have hp := probe_loop_none_of_no_match fds_miss 7 hno fuel
      (Hash_retaddr 7 fds_miss.mask)
    unfold caml_garbage_collection
    rw [hp]
  · intro hcontra
    cases hcontra

/-- C4, amended: when no descriptor in the table matches the return address,
the probe loop of `caml_garbage_collection` never yields a descriptor, for
any number of probe steps: the handler neither returns to its caller nor
reports a fatal error — the lookup is retried forever around the table
rather than escalated to the fatal-error facility. -/
theorem lookup_miss_spins (fds : caml_frame_descrs) (decode : Nat → Nat)
    (gi ps : Nat → CamlState → CamlState) (retaddr : Nat) (st0 : CamlState)
    (hno : ∀ i, (fds.descriptors i).retaddr ≠ retaddr) (fuel : Nat) :
    probe_loop fds retaddr (Hash_retaddr retaddr fds.mask) fuel = none
    ∧ caml_garbage_collection fds decode gi ps retaddr st0 fuel = none := by
  have hp := probe_loop_none_of_no_match fds retaddr hno fuel
    (Hash_retaddr retaddr fds.mask)
  refine ⟨hp, ?_⟩
  unfold caml_garbage_collection
  rw [hp]

/-- Witness for the amended C4 at the concrete table `fds_miss`, query 7. -/
theorem lookup_miss_spins_witness :
    (∀ i, (fds_miss.descriptors i).retaddr ≠ 7)
    ∧ (probe_loop fds_miss 7 (Hash_retaddr 7 fds_miss.mask) 3 = none
       ∧ caml_garbage_collection fds_miss (fun b => b) (fun _ s => s) (fun _ s => s) 7
           { young_ptr := 100, young_limit := 10 } 3 = none) :=
  ⟨fun i => by simp [fds_miss, d_miss],
   lookup_miss_spins fds_miss (fun b => b) (fun _ s => s) (fun _ s => s) 7
     { young_ptr := 100, young_limit := 10 } (fun i => by simp [fds_miss, d_miss]) 3⟩

theorem probe_loop_finds (fds : caml_frame_descrs) (retaddr : Nat) (m : Nat)
    (hmask : fds.mask = 2 ^ m - 1) :
    ∀ fuel h0, h0 < 2 ^ m →
      (∃ k, k < fuel ∧ (fds.descriptors ((h0 + k) % 2 ^ m)).retaddr = retaddr) →
      ∃ d, probe_loop fds retaddr h0 fuel = some d ∧ d.retaddr = retaddr := by
  intro fuel
  induction fuel with
  | zero =>
    intro h0 _ hex
    obtain ⟨k, hk, _⟩ := hex
    omega
  | succ fuel ih =>
    intro h0 hh0 hex
    obtain ⟨k, hk, hkey⟩ := hex
    by_cases hd : (fds.descriptors h0).retaddr = retaddr
    · refine ⟨fds.descriptors h0, ?_, hd⟩
      simp only [probe_loop]
      rw [if_pos hd]
    · have hk0 : k ≠ 0 := by
        intro hzero
        subst hzero
        rw [Nat.add_zero, Nat.mod_eq_of_lt hh0] at hkey
        exact hd hkey
      have hstep : (h0 + 1) &&& fds.mask = (h0 + 1) % 2 ^ m := by
        rw [hmask, Nat.and_pow_two_sub_one_eq_mod]
      have hpos : 0 < 2 ^ m := Nat.pos_pow_of_pos m (by norm_num)
      have harith : ((h0 + 1) % 2 ^ m + (k - 1)) % 2 ^ m = (h0 + k) % 2 ^ m := by
        rw [Nat.mod_add_mod]
        congr 1
        omega
      obtain ⟨d, hpd, hdret⟩ := ih ((h0 + 1) % 2 ^ m) (Nat.mod_lt _ hpos)
        ⟨k - 1, by omega, by rw [harith]; exact hkey⟩
      refine ⟨d, ?_, hdret⟩
      simp only [probe_loop]
      rw [if_neg hd, hstep]
      exact hpd

/-- C5: for every return address actually present in the frame-descriptor
table (power-of-two size `2 ^ m` with bit-mask indexing and linear probe
step 1), the probe loop terminates — within one pass over the table, i.e.
`mask + 1` probe steps — and yields a descriptor whose stored return-address
key equals the queried return address. -/
theorem lookup_present_found (fds : caml_frame_descrs) (retaddr : Nat) (m : Nat)
    (hmask : fds.mask = 2 ^ m - 1) (i : Nat) (hi : i ≤ fds.mask)
    (hkey : (fds.descriptors i).retaddr = retaddr) :
    ∃ d, probe_loop fds retaddr (Hash_retaddr retaddr fds.mask) (fds.mask + 1)
          = some d
       ∧ d.retaddr = retaddr := by
  have hpos : 0 < 2 ^ m := Nat.pos_pow_of_pos m (by norm_num)
  have hi2 : i < 2 ^ m := by omega
  have hh0 : Hash_retaddr retaddr fds.mask < 2 ^ m := by
    have hle : Hash_retaddr retaddr fds.mask ≤ fds.mask := Nat.and_le_right
    omega
  have hfuel : fds.mask + 1 = 2 ^ m := by omega
  set h0 := Hash_retaddr retaddr fds.mask with hh0def
  have hcov : (h0 + (i + 2 ^ m - h0) % 2 ^ m) % 2 ^ m = i := by
    rw [Nat.add_mod_mod]
    have : h0 + (i + 2 ^ m - h0) = i + 2 ^ m := by omega
    rw [this, Nat.add_mod_right, Nat.mod_eq_of_lt hi2]
  rw [hfuel]
  exact probe_loop_finds fds retaddr m hmask (2 ^ m) h0 hh0
    ⟨(i + 2 ^ m - h0) % 2 ^ m, Nat.mod_lt _ hpos, by rw [hcov]; exact hkey⟩

/-- Witness for C5: the two-slot table `fds_two` with key 9 stored in slot 1. -/
theorem lookup_present_found_witness :
    (fds_two.mask = 2 ^ 1 - 1 ∧ 1 ≤ fds_two.mask
     ∧ (fds_two.descriptors 1).retaddr = 9)
    ∧ ∃ d, probe_loop fds_two 9 (Hash_retaddr 9 fds_two.mask) (fds_two.mask + 1)
            = some d
         ∧ d.retaddr = 9 :=
  ⟨⟨by decide, by decide, by decide⟩,
   lookup_present_found fds_two 9 1 (by decide) 1 (by decide) (by decide)⟩

theorem passes_from_zero (gi ps : Nat → CamlState → CamlState) (n : Nat)
    (s : CamlState) : passes_from gi ps n s 0 = s := rfl

theorem passes_from_succ (gi ps : Nat → CamlState → CamlState) (n : Nat)
    (s : CamlState) (k : Nat) :
    passes_from gi ps n s (k + 1) = passes_from gi ps (n + 1) (gc_pass gi ps n s) k := rfl

theorem gc_loop_spec (gi ps : Nat → CamlState → CamlState) (whs : Nat) :
    ∀ fuel n s s2 m, gc_loop gi ps whs n fuel s = some (s2, m) →
      n < m
      ∧ s2 = passes_from gi ps n s (m - n)
      ∧ s2.young_limit < sub64 s2.young_ptr whs
      ∧ ∀ j, 1 ≤ j → j < m - n →
          sub64 (passes_from gi ps n s j).young_ptr whs
            ≤ (passes_from gi ps n s j).young_limit := by
  intro fuel
  induction fuel with
  | zero =>
    intro n s s2 m h
    simp [gc_loop] at h
  | succ fuel ih =>
    intro n s s2 m h
    simp only [gc_loop] at h
    by_cases hc : sub64 (gc_pass gi ps n s).young_ptr whs ≤ (gc_pass gi ps n s).young_limit
    · rw [if_pos hc] at h
      obtain ⟨hnm, hs2, hexit, hfail⟩ := ih (n + 1) (gc_pass gi ps n s) s2 m h
      refine ⟨by omega, ?_, hexit, ?_⟩
      · have hk : m - n = (m - (n + 1)) + 1 := by omega
        rw [hk, passes_from_succ]
        exact hs2
      · intro j h1 hj
        match j, h1 with
        | 1, _ =>
          rw [passes_from_succ, passes_from_zero]
          exact hc
        | (j + 2), _ =>
          rw [passes_from_succ]
          exact hfail (j + 1) (by omega) (by omega)
    · rw [if_neg hc] at h
      simp only [Option.some.injEq, Prod.mk.injEq] at h
      obtain ⟨hs2, hm⟩ := h
      subst hs2
      subst hm
      refine ⟨by omega, ?_, Nat.lt_of_not_le hc, ?_⟩
      · have hk : n + 1 - n = 1 := by omega
        rw [hk, passes_from_succ, passes_from_zero]
      · intro j h1 hj
        omega

/-- C2: for every non-poll invocation of the handler that returns, the
returned cursor — the loop-exit cursor retracted by the requested
header-inclusive size — sits strictly above the context's low-water limit;
the handler runs the external interrupt pass and the pending-signal drain at
least once and equally often, and it keeps looping exactly until the
retraction condition holds: the final state is the loop-exit pass state with
the cursor retracted by `whsize`, the loop-exit state satisfies the strict
headroom condition, and every earlier pass state failed it. -/
theorem gc_alloc_headroom (fds : caml_frame_descrs) (decode : Nat → Nat)
    (gi ps : Nat → CamlState → CamlState) (retaddr : Nat) (st0 : CamlState)
    (fuel : Nat) (s : CamlState) (ic dc : Nat)
    (h : caml_garbage_collection fds decode gi ps retaddr st0 fuel
          = some (GcResult.alloc s ic dc)) :
    s.young_limit < s.young_ptr
    ∧ 1 ≤ ic ∧ dc = ic
    ∧ ∃ d, probe_loop fds retaddr (Hash_retaddr retaddr fds.mask) fuel = some d
        ∧ d.alloc_lens.length ≠ 0
        ∧ (let whs := whsize decode d.alloc_lens
           let s0 : CamlState := { st0 with young_ptr := add64 st0.young_ptr whs }
           let sExit := passes_from gi ps 0 s0 ic
           sExit.young_limit < sub64 sExit.young_ptr whs
           ∧ s = { sExit with young_ptr := sub64 sExit.young_ptr whs }
           ∧ ∀ j, 1 ≤ j → j < ic →
               sub64 (passes_from gi ps 0 s0 j).young_ptr whs
                 ≤ (passes_from gi ps 0 s0 j).young_limit) := by
  unfold caml_garbage_collection at h
  split at h
  · cases h
  next d hp =>
    by_cases hz : d.alloc_lens.length = 0
    · rw [if_pos hz] at h
      cases h
    · rw [if_neg hz] at h
      simp only at h
      split at h
      · cases h
      next s2 mm hl =>
        simp only [Option.some.injEq, GcResult.alloc.injEq] at h
        obtain ⟨hs, hic, hdc⟩ := h
        obtain ⟨hmpos, hs2eq, hcond, hfail⟩ :=
          gc_loop_spec gi ps (whsize decode d.alloc_lens) fuel 0
            { st0 with young_ptr := add64 st0.young_ptr (whsize decode d.alloc_lens) }
            s2 mm hl
        rw [Nat.sub_zero] at hs2eq
        subst hic
        subst hdc
        refine ⟨?_, by omega, rfl, d, hp, hz, ?_, ?_, ?_⟩
        · rw [← hs]
          simpa using hcond
        · rw [← hs2eq]
          exact hcond
        · rw [← hs, ← hs2eq]
        · intro j h1 hj
          exact hfail j h1 (by omega)

/-- Witness for C2 on Scenario A's table: one pass suffices, the handler
returns with the cursor back at 100, strictly above the limit 10. -/
theorem gc_alloc_headroom_witness :
    caml_garbage_collection fds_scene_a (fun b => b) (fun _ s => s) (fun _ s => s)
        8 { young_ptr := 100, young_limit := 10 } 1
      = some (GcResult.alloc { young_ptr := 100, young_limit := 10 } 1 1)
    ∧ (({ young_ptr := 100, young_limit := 10 } : CamlState).young_limit
        < ({ young_ptr := 100, young_limit := 10 } : CamlState).young_ptr
       ∧ 1 ≤ 1 ∧ 1 = 1
       ∧ ∃ d, probe_loop fds_scene_a 8 (Hash_retaddr 8 fds_scene_a.mask) 1 = some d
           ∧ d.alloc_lens.length ≠ 0
           ∧ (let whs := whsize (fun b => b) d.alloc_lens
              let s0 : CamlState :=
                { young_ptr := add64 100 whs, young_limit := 10 }
              let sExit := passes_from (fun _ s => s) (fun _ s => s) 0 s0 1
              sExit.young_limit < sub64 sExit.young_ptr whs
              ∧ ({ young_ptr := 100, young_limit := 10 } : CamlState)
                  = { sExit with young_ptr := sub64 sExit.young_ptr whs }
              ∧ ∀ j, 1 ≤ j → j < 1 →
                  sub64 (passes_from (fun _ s => s) (fun _ s => s) 0 s0 j).young_ptr whs
                    ≤ (passes_from (fun _ s => s) (fun _ s => s) 0 s0 j).young_limit)) :=
  ⟨by decide,
   gc_alloc_headroom fds_scene_a (fun b => b) (fun _ s => s) (fun _ s => s) 8
     { young_ptr := 100, young_limit := 10 } 1
     { young_ptr := 100, young_limit := 10 } 1 1 (by decide)⟩

end SignalsNat
